import Mathlib

/-!
Shallow embedding of the peer-to-peer live-streaming session coordinator of
`src/src/modules/livestream/pages/MainAppPage.tsx` (the canonical variant; the
duplicated page in `src/src/App.tsx` has the same handler bodies).

Modelling conventions:
* JavaScript numbers used as identifiers are `Nat`; the `Math.random` draw is a
  rational in `[0,1)` (the claims about it are order/floor facts, independent of
  the binary float representation).
* SDP blobs and ICE candidates are opaque `String` tokens; `createOffer` /
  `createAnswer` are modelled as producing the fixed tokens `offerSdp` /
  `answerSdp` (their content is never inspected by the coordinator).
* `RTCPeerConnection` is modelled by the fields the coordinator reads or
  writes: local/remote description, the list of remote candidates applied via
  `addIceCandidate`, and whether local media tracks were attached.
* The host registry `peersRef : Map<number, RTCPeerConnection>` is an
  association list with JavaScript `Map` semantics (`set` replaces in place,
  `delete` removes, insertion order kept).
* Each socket handler becomes a pure function from state and inbound event to
  (new state, emitted messages); `hostHandle` additionally returns the list of
  peer ids on which `close()` was invoked during the step.
* JavaScript truthiness matters once: the viewer guard
  `payload.toUserId && payload.toUserId !== viewerId` treats `toUserId = 0` as
  absent; `toUserIdBlocks` reproduces this.
-/

set_option autoImplicit false

namespace ProductLive

/-- Catalog item, `ProductDto` of the generated schema (price is an IEEE double
in the source, modelled as a rational; the coordinator never computes with it). -/
structure Product where
  id : Nat
  title : String
  description : String
  price : ℚ
  imageUrl : String
  deriving DecidableEq

/-- One chat entry as kept in the `comments` state of both pages. -/
structure Comment where
  userId : Nat
  message : String
  deriving DecidableEq

/-- `role` field of membership messages. -/
inductive Role where
  | seller
  | viewer
  deriving DecidableEq

/-- `SignalPayload.type`. -/
inductive SignalType where
  | offer
  | answer
  | iceCandidate
  deriving DecidableEq

/-- Opaque session description (`RTCSessionDescriptionInit`). -/
abbrev Sdp := String

/-- Opaque connectivity candidate (`RTCIceCandidateInit`). -/
abbrev Candidate := String

/-- `SignalPayload` of the source: a tagged union carried by `stream_signal`. -/
structure SignalPayload where
  type : SignalType
  sdp : Option Sdp
  candidate : Option Candidate
  deriving DecidableEq

/-- Inbound socket events the pages register handlers for. -/
inductive InEvent where
  | viewerCountUpdated (roomId : String) (viewerCount : Nat)
  | participantJoined (roomId : String) (userId : Nat) (role : Role)
  | participantLeft (roomId : String) (userId : Nat)
  | commentCreated (roomId : String) (userId : Nat) (message : String)
  | productShared (roomId : String) (product : Product)
  | streamSignal (roomId : String) (fromUserId : Nat) (toUserId : Option Nat)
      (payload : SignalPayload)
  deriving DecidableEq

/-- An outbound `stream_signal` emission (always addressed in the source). -/
structure OutSignal where
  roomId : String
  fromUserId : Nat
  toUserId : Nat
  payload : SignalPayload
  deriving DecidableEq

/-- Messages emitted through the socket by the modelled handlers. -/
inductive OutMsg where
  | streamSignal (m : OutSignal)
  | sendComment (roomId : String) (userId : Nat) (message : String)
  deriving DecidableEq

/-- The state of one `RTCPeerConnection` as far as the coordinator observes it. -/
structure PeerConn where
  localDescription : Option Sdp
  remoteDescription : Option Sdp
  candidates : List Candidate
  tracksAttached : Bool
  deriving DecidableEq

/-- A fresh `new RTCPeerConnection(rtcConfig)` with tracks attached when a local
media stream exists (host side attaches `streamRef` tracks on creation). -/
def newPeerConn (tracks : Bool) : PeerConn :=
  { localDescription := none, remoteDescription := none, candidates := [],
    tracksAttached := tracks }

/-- `Map.get` on the host peer registry. -/
def mapGet : List (Nat × PeerConn) → Nat → Option PeerConn
  | [], _ => none
  | e :: es, k => if e.1 = k then some e.2 else mapGet es k

/-- `Map.set`: replace in place if the key exists, else append. -/
def mapSet : List (Nat × PeerConn) → Nat → PeerConn → List (Nat × PeerConn)
  | [], k, v => [(k, v)]
  | e :: es, k, v => if e.1 = k then (k, v) :: es else e :: mapSet es k v

/-- `Map.delete`. -/
def mapDelete (m : List (Nat × PeerConn)) (k : Nat) : List (Nat × PeerConn) :=
  m.filter (fun e => decide (e.1 ≠ k))

/-- Token standing for the SDP produced by `createOffer`. -/
def offerSdp : Sdp := "sdp-offer"

/-- Token standing for the SDP produced by `createAnswer`. -/
def answerSdp : Sdp := "sdp-answer"

/-- The comment-log update both pages use:
`setComments((prev) => [...prev.slice(-39), entry])`. -/
def pushComment (prev : List Comment) (c : Comment) : List Comment :=
  prev.drop (prev.length - 39) ++ [c]

/-- The featured-product update of the viewer page:
`[payload.product, ...prev.filter((p) => p.id !== payload.product.id)].slice(0, 10)`. -/
def shareUpdate (prev : List Product) (p : Product) : List Product :=
  (p :: prev.filter (fun q => decide (q.id ≠ p.id))).take 10

/-- `/auth/profile` response. -/
structure Profile where
  sub : Nat
  email : String
  deriving DecidableEq

/-- State of `HostRoomPage` relevant to the coordinator: refs, the peer
registry, and UI-visible state. `socket`/`stream` record whether
`socketRef.current` / `streamRef.current` are set. -/
structure HostState where
  roomId : String
  sellerId : Nat
  profile : Option Profile
  stream : Bool
  socket : Bool
  peers : List (Nat × PeerConn)
  comments : List Comment
  message : String
  viewerCount : Nat
  deriving DecidableEq

/-- `ensurePeer` of `HostRoomPage`: return the registered connection for
`viewerId`, creating, track-attaching and registering a fresh one if absent. -/
def ensurePeer (s : HostState) (viewerId : Nat) : PeerConn × HostState :=
  match mapGet s.peers viewerId with
  | some pc => (pc, s)
  | none =>
      let pc := newPeerConn s.stream
      (pc, { s with peers := mapSet s.peers viewerId pc })

/-- `setRemoteDescription` on an `answer` payload carrying an SDP (host side). -/
def applyAnswer (pc : PeerConn) (p : SignalPayload) : PeerConn :=
  match p.type, p.sdp with
  | SignalType.answer, some sdp => { pc with remoteDescription := some sdp }
  | _, _ => pc

/-- `addIceCandidate` on an `ice-candidate` payload carrying a candidate. -/
def applyCandidate (pc : PeerConn) (p : SignalPayload) : PeerConn :=
  match p.type, p.candidate with
  | SignalType.iceCandidate, some c => { pc with candidates := pc.candidates ++ [c] }
  | _, _ => pc

/-- The inbound dispatch of `HostRoomPage`: one case per registered socket
handler (the page registers none for `product_shared`). Returns the new state,
the messages emitted synchronously by the handler, and the ids of peer
connections on which `close()` was called. -/
def hostHandle (s : HostState) : InEvent → HostState × List OutMsg × List Nat
  | InEvent.viewerCountUpdated rid vc =>
      if rid = s.roomId then ({ s with viewerCount := vc }, [], []) else (s, [], [])
  | InEvent.participantJoined rid uid role =>
      if rid ≠ s.roomId ∨ role ≠ Role.viewer then (s, [], [])
      else
        let es := ensurePeer s uid
        let pc := { es.1 with localDescription := some offerSdp }
        ({ es.2 with peers := mapSet es.2.peers uid pc },
         [OutMsg.streamSignal
            { roomId := s.roomId, fromUserId := s.sellerId, toUserId := uid,
              payload := { type := SignalType.offer, sdp := some offerSdp,
                           candidate := none } }],
         [])
  | InEvent.participantLeft rid uid =>
      if rid ≠ s.roomId then (s, [], [])
      else
        ({ s with peers := mapDelete s.peers uid }, [],
         match mapGet s.peers uid with
         | some _ => [uid]
         | none => [])
  | InEvent.commentCreated rid uid msg =>
      if rid = s.roomId then
        ({ s with comments := pushComment s.comments { userId := uid, message := msg } },
         [], [])
      else (s, [], [])
  | InEvent.productShared _ _ => (s, [], [])
  | InEvent.streamSignal rid fromUserId toUserId payload =>
      if rid ≠ s.roomId ∨ toUserId ≠ some s.sellerId then (s, [], [])
      else
        let es := ensurePeer s fromUserId
        let pc := applyCandidate (applyAnswer es.1 payload) payload
        ({ es.2 with peers := mapSet es.2.peers fromUserId pc }, [], [])

/-- State of `JoinRoomPage` relevant to the coordinator. The single peer
connection `pcRef` is an `Option`. -/
structure ViewerState where
  roomId : String
  viewerId : Nat
  pc : Option PeerConn
  comments : List Comment
  featuredProducts : List Product
  message : String
  viewerCount : Nat
  socket : Bool
  deriving DecidableEq

/-- The viewer guard `payload.toUserId && payload.toUserId !== viewerId`:
blocks exactly when `toUserId` is present, truthy (nonzero) and differs from
the local id. -/
def toUserIdBlocks (toUserId : Option Nat) (vid : Nat) : Bool :=
  match toUserId with
  | some n => decide (n ≠ 0) && decide (n ≠ vid)
  | none => false

/-- Viewer reaction to an `offer` payload carrying an SDP: set the remote
description, create and set the local answer, and emit the answer addressed to
the sender. -/
def applyOffer (s : ViewerState) (fromUserId : Nat) (pc : PeerConn)
    (p : SignalPayload) : PeerConn × List OutMsg :=
  match p.type, p.sdp with
  | SignalType.offer, some sdp =>
      ({ pc with remoteDescription := some sdp, localDescription := some answerSdp },
       [OutMsg.streamSignal
          { roomId := s.roomId, fromUserId := s.viewerId, toUserId := fromUserId,
            payload := { type := SignalType.answer, sdp := some answerSdp,
                         candidate := none } }])
  | _, _ => (pc, [])

/-- The inbound dispatch of `JoinRoomPage`: one case per registered socket
handler (the page registers none for membership events). -/
def viewerHandle (s : ViewerState) : InEvent → ViewerState × List OutMsg
  | InEvent.viewerCountUpdated rid vc =>
      if rid = s.roomId then ({ s with viewerCount := vc }, []) else (s, [])
  | InEvent.commentCreated rid uid msg =>
      if rid = s.roomId then
        ({ s with comments := pushComment s.comments { userId := uid, message := msg } }, [])
      else (s, [])
  | InEvent.productShared rid p =>
      if rid = s.roomId then
        ({ s with featuredProducts := shareUpdate s.featuredProducts p }, [])
      else (s, [])
  | InEvent.participantJoined _ _ _ => (s, [])
  | InEvent.participantLeft _ _ => (s, [])
  | InEvent.streamSignal rid fromUserId toUserId payload =>
      if rid ≠ s.roomId ∨ toUserIdBlocks toUserId s.viewerId = true then (s, [])
      else
        let pc0 := match s.pc with
          | some pc => pc
          | none => newPeerConn false
        let ofr := applyOffer s fromUserId pc0 payload
        let pc2 := applyCandidate ofr.1 payload
        ({ s with pc := some pc2 }, ofr.2)

/-- Run the host dispatch over a list of inbound events, accumulating the
emitted messages in order. -/
def hostRun : HostState → List InEvent → HostState × List OutMsg
  | s, [] => (s, [])
  | s, e :: es =>
      let r := hostHandle s e
      let rest := hostRun r.1 es
      (rest.1, r.2.1 ++ rest.2)

/-- Run the viewer dispatch over a list of inbound events. -/
def viewerRun : ViewerState → List InEvent → ViewerState × List OutMsg
  | s, [] => (s, [])
  | s, e :: es =>
      let r := viewerHandle s e
      let rest := viewerRun r.1 es
      (rest.1, r.2 ++ rest.2)

/-- JavaScript `String.prototype.trim`: strip leading and trailing whitespace
(modelled with `Char.isWhitespace`). -/
def jsTrim (s : String) : String :=
  String.mk
    (((s.data.dropWhile Char.isWhitespace).reverse.dropWhile Char.isWhitespace).reverse)

/-- `sendComment` of `JoinRoomPage`: guard
`if (!message.trim() || !socketRef.current) return`, then emit the trimmed
message and clear the input. -/
def viewerSendComment (s : ViewerState) : ViewerState × List OutMsg :=
  if jsTrim s.message = "" ∨ s.socket = false then (s, [])
  else ({ s with message := "" },
        [OutMsg.sendComment s.roomId s.viewerId (jsTrim s.message)])

/-- `sendComment` of `HostRoomPage`: guard
`if (!message.trim() || !profileQuery.data || !socketRef.current) return`, then
emit with `userId: profileQuery.data.sub` and clear the input. -/
def hostSendComment (s : HostState) : HostState × List OutMsg :=
  if jsTrim s.message = "" ∨ s.profile.isNone = true ∨ s.socket = false then (s, [])
  else
    match s.profile with
    | some pr =>
        ({ s with message := "" }, [OutMsg.sendComment s.roomId pr.sub (jsTrim s.message)])
    | none => (s, [])

/-- Phases of the viewer page lifecycle for a fixed `(roomId, viewerId)`:
the join mutation fires in the first effect; the socket effect runs next and,
since `joinMutation.isError` is still false while the request is in flight,
opens the socket; a later error re-runs the effect, whose cleanup disconnects
the socket and whose body early-returns. -/
inductive VPhase where
  | mounted
  | inFlight
  | joined
  | failed
  deriving DecidableEq

/-- Scheduler events driving the viewer page lifecycle. -/
inductive VEvent where
  | effectsRun
  | joinResult (ok : Bool)
  deriving DecidableEq

/-- Lifecycle transition of the viewer page. -/
def vStep : VPhase → VEvent → VPhase
  | VPhase.mounted, VEvent.effectsRun => VPhase.inFlight
  | VPhase.inFlight, VEvent.joinResult true => VPhase.joined
  | VPhase.inFlight, VEvent.joinResult false => VPhase.failed
  | p, _ => p

/-- Run the viewer lifecycle over a list of scheduler events. -/
def vRun (p : VPhase) (es : List VEvent) : VPhase := es.foldl vStep p

/-- Whether `socketRef.current` holds a connected socket in a given phase:
the socket is created by the effect body (guard `isError` false) and destroyed
by its cleanup when the join error lands. -/
def viewerSocketOpen : VPhase → Bool
  | VPhase.inFlight => true
  | VPhase.joined => true
  | _ => false

/-- Outcome of the host `setup` async function, a straight-line await sequence
`join REST → getUserMedia → io(...)` in which a rejection aborts the rest. -/
structure HostSetupResult where
  joined : Bool
  streamAcquired : Bool
  socketCreated : Bool
  deriving DecidableEq

/-- `setup` of `HostRoomPage`, parametrised by which awaited steps succeed. -/
def hostSetup (joinOk mediaOk : Bool) : HostSetupResult :=
  if joinOk = false then
    { joined := false, streamAcquired := false, socketCreated := false }
  else if mediaOk = false then
    { joined := true, streamAcquired := false, socketCreated := false }
  else
    { joined := true, streamAcquired := true, socketCreated := true }

/-- `Math.floor(Math.random() * 1000000) + 1` on a draw `r`. -/
def randomViewerIdDraw (r : ℚ) : ℤ := ⌊r * 1000000⌋ + 1

/-- `useMemo(() => Math.floor(Math.random() * 1000000) + 1, [])`: the value at
render `n`; with an empty dependency array only render `0` computes, later
renders reuse the cached value. `draws n` is the value `Math.random()` would
return if called at render `n`. -/
def useMemoRandomViewerId (draws : ℕ → ℚ) : ℕ → ℤ
  | 0 => randomViewerIdDraw (draws 0)
  | n + 1 => useMemoRandomViewerId draws n

/-- Host page state right after a successful `setup`. -/
def initHost (roomId : String) (sellerId : Nat) : HostState :=
  { roomId := roomId, sellerId := sellerId,
    profile := some { sub := sellerId, email := "host@shop.local" },
    stream := true, socket := true, peers := [], comments := [], message := "",
    viewerCount := 0 }

/-- Viewer page state right after its socket effect ran. -/
def initViewer (roomId : String) (viewerId : Nat) : ViewerState :=
  { roomId := roomId, viewerId := viewerId, pc := none, comments := [],
    featuredProducts := [], message := "", viewerCount := 0, socket := true }

/-- The offer message the host emits on a viewer join. -/
def offerOut (rid : String) (sid uid : Nat) : OutMsg :=
  OutMsg.streamSignal
    { roomId := rid, fromUserId := sid, toUserId := uid,
      payload := { type := SignalType.offer, sdp := some offerSdp, candidate := none } }

/-- Whether a message is an offer addressed to `uid`. -/
def isOfferTo (uid : Nat) : OutMsg → Bool
  | OutMsg.streamSignal m =>
      decide (m.toUserId = uid) && decide (m.payload.type = SignalType.offer)
  | _ => false

/-! ### Registry map laws -/

theorem mapSet_mapSet (m : List (Nat × PeerConn)) (k : Nat) (v w : PeerConn) :
    mapSet (mapSet m k v) k w = mapSet m k w := by
  induction m with
  | nil => simp [mapSet]
  | cons e es ih =>
      by_cases h : e.1 = k
      · simp [mapSet, h]
      · simp [mapSet, h, ih]

theorem mapGet_mapSet_self (m : List (Nat × PeerConn)) (k : Nat) (v : PeerConn) :
    mapGet (mapSet m k v) k = some v := by
  induction m with
  | nil => simp [mapSet, mapGet]
  | cons e es ih =>
      by_cases h : e.1 = k
      · simp [mapSet, h, mapGet]
      · simp [mapSet, h, mapGet, ih]

theorem mapGet_mapDelete_self (m : List (Nat × PeerConn)) (k : Nat) :
    mapGet (mapDelete m k) k = none := by
  induction m with
  | nil => simp [mapDelete, mapGet]
  | cons e es ih =>
      by_cases h : e.1 = k
      · simpa [mapDelete, List.filter_cons, h] using ih
      · simpa [mapDelete, List.filter_cons, h, mapGet] using ih

theorem mapGet_mapDelete_ne (m : List (Nat × PeerConn)) (k w : Nat) (h : w ≠ k) :
    mapGet (mapDelete m k) w = mapGet m w := by
  induction m with
  | nil => simp [mapDelete]
  | cons e es ih =>
      by_cases he : e.1 = k
      · have hkw : ¬ (k = w) := fun hh => h hh.symm
        simpa [mapDelete, List.filter_cons, he, mapGet, hkw] using ih
      · by_cases hw : e.1 = w
        · simp [mapDelete, List.filter_cons, he, mapGet, hw, h]
        · simpa [mapDelete, List.filter_cons, he, mapGet, hw] using ih

/-- Keys of the registry. -/
def mapKeys (m : List (Nat × PeerConn)) : List Nat := m.map Prod.fst

theorem mapKeys_mapSet (m : List (Nat × PeerConn)) (k : Nat) (v : PeerConn) :
    (k ∈ mapKeys m ∧ mapKeys (mapSet m k v) = mapKeys m) ∨
    (k ∉ mapKeys m ∧ mapKeys (mapSet m k v) = mapKeys m ++ [k]) := by
  induction m with
  | nil =>
      right
      exact ⟨by simp [mapKeys], by simp [mapKeys, mapSet]⟩
  | cons e es ih =>
      by_cases he : e.1 = k
      · left
        exact ⟨by simp [mapKeys, he], by simp [mapKeys, mapSet, he]⟩
      · have hne : ¬ (k = e.1) := fun hh => he hh.symm
        rcases ih with ⟨hmem, hcase⟩ | ⟨hmem, hcase⟩
        · left
          constructor
          · simp only [mapKeys, List.map_cons, List.mem_cons]
            right
            exact hmem
          · simp only [mapKeys, mapSet, if_neg he, List.map_cons]
            simp only [mapKeys] at hcase
            rw [hcase]
        · right
          constructor
          · simp only [mapKeys, List.map_cons, List.mem_cons]
            rintro (hh | hh)
            · exact hne hh
            · exact hmem hh
          · simp only [mapKeys, mapSet, if_neg he, List.map_cons]
            simp only [mapKeys] at hcase
            rw [hcase]
            rfl

theorem mapKeys_mapSet_nodup (m : List (Nat × PeerConn)) (k : Nat) (v : PeerConn)
    (h : (mapKeys m).Nodup) : (mapKeys (mapSet m k v)).Nodup := by
  rcases mapKeys_mapSet m k v with ⟨_, hcase⟩ | ⟨hmem, hcase⟩
  · rwa [hcase]
  · rw [hcase]
    refine List.Nodup.append h (by simp) ?_
    intro a ha hk
    rw [List.mem_singleton] at hk
    subst hk
    exact hmem ha

theorem mapKeys_mapDelete_nodup (m : List (Nat × PeerConn)) (k : Nat)
    (h : (mapKeys m).Nodup) : (mapKeys (mapDelete m k)).Nodup := by
  have hsub : (mapKeys (mapDelete m k)).Sublist (mapKeys m) := by
    unfold mapKeys mapDelete
    exact List.Sublist.map Prod.fst (List.filter_sublist m)
  exact h.sublist hsub

/-! ### Field preservation of the handlers -/

theorem ensurePeer_snd (s : HostState) (u : Nat) :
    (ensurePeer s u).2 = { s with peers := (ensurePeer s u).2.peers } := by
  rcases h : mapGet s.peers u with _ | pc <;> simp [ensurePeer, h]

theorem hostHandle_fields (s : HostState) (e : InEvent) :
    (hostHandle s e).1 = { s with peers := (hostHandle s e).1.peers,
                                  comments := (hostHandle s e).1.comments,
                                  viewerCount := (hostHandle s e).1.viewerCount } := by
  cases e with
  | viewerCountUpdated rid vc => simp only [hostHandle]; split <;> rfl
  | participantJoined rid uid role =>
      simp only [hostHandle]
      split
      · rfl
      · rcases h : mapGet s.peers uid with _ | pc <;> simp [ensurePeer, h]
  | participantLeft rid uid => simp only [hostHandle]; split <;> rfl
  | commentCreated rid uid msg => simp only [hostHandle]; split <;> rfl
  | productShared rid p => rfl
  | streamSignal rid f t p =>
      simp only [hostHandle]
      split
      · rfl
      · rcases h : mapGet s.peers f with _ | pc <;> simp [ensurePeer, h]

theorem viewerHandle_fields (s : ViewerState) (e : InEvent) :
    (viewerHandle s e).1 = { s with pc := (viewerHandle s e).1.pc,
                                    comments := (viewerHandle s e).1.comments,
                                    featuredProducts := (viewerHandle s e).1.featuredProducts,
                                    viewerCount := (viewerHandle s e).1.viewerCount } := by
  cases e with
  | viewerCountUpdated rid vc => simp only [viewerHandle]; split <;> rfl
  | participantJoined rid uid role => rfl
  | participantLeft rid uid => rfl
  | commentCreated rid uid msg => simp only [viewerHandle]; split <;> rfl
  | productShared rid p => simp only [viewerHandle]; split <;> rfl
  | streamSignal rid f t p => simp only [viewerHandle]; split <;> rfl

/-! ### Comment log -/

theorem pushComment_fold (cs : List Comment) :
    List.foldl pushComment [] cs = cs.drop (cs.length - 40) := by
  induction cs using List.reverseRecOn with
  | nil => simp
  | append_singleton cs c ih =>
      rw [List.foldl_append, List.foldl_cons, List.foldl_nil, ih]
      unfold pushComment
      rw [List.length_drop, List.drop_drop, List.length_append, List.length_singleton,
        List.drop_append_eq_append_drop]
      have h1 : cs.length - 40 + (cs.length - (cs.length - 40) - 39) = cs.length + 1 - 40 := by
        omega
      have h2 : cs.length + 1 - 40 - cs.length = 0 := by omega
      rw [h1, h2, List.drop_zero]

theorem hostRun_comments (pairs : List (Nat × String)) (rid : String) :
    ∀ s : HostState, s.roomId = rid →
      (hostRun s (pairs.map (fun q => InEvent.commentCreated rid q.1 q.2))).1.comments =
        List.foldl pushComment s.comments
          (pairs.map (fun q => { userId := q.1, message := q.2 })) := by
  induction pairs with
  | nil => intro s _; rfl
  | cons q qs ih =>
      intro s h1
      have hstep : hostHandle s (InEvent.commentCreated rid q.1 q.2) =
          ({ s with comments := pushComment s.comments { userId := q.1, message := q.2 } },
           [], []) := by
        simp [hostHandle, h1]
      simp only [List.map_cons, hostRun, hstep, List.foldl_cons]
      exact ih _ h1

theorem viewerRun_comments (pairs : List (Nat × String)) (rid : String) :
    ∀ s : ViewerState, s.roomId = rid →
      (viewerRun s (pairs.map (fun q => InEvent.commentCreated rid q.1 q.2))).1.comments =
        List.foldl pushComment s.comments
          (pairs.map (fun q => { userId := q.1, message := q.2 })) := by
  induction pairs with
  | nil => intro s _; rfl
  | cons q qs ih =>
      intro s h1
      have hstep : viewerHandle s (InEvent.commentCreated rid q.1 q.2) =
          ({ s with comments := pushComment s.comments { userId := q.1, message := q.2 } },
           []) := by
        simp [viewerHandle, h1]
      simp only [List.map_cons, viewerRun, hstep, List.foldl_cons]
      exact ih _ h1

/-! ### Shared-product list -/

theorem shareUpdate_length_le (prev : List Product) (p : Product) :
    (shareUpdate prev p).length ≤ 10 := by
  simp only [shareUpdate, List.length_take]
  exact min_le_left _ _

theorem shareUpdate_nodup (prev : List Product) (p : Product)
    (h : (prev.map Product.id).Nodup) : ((shareUpdate prev p).map Product.id).Nodup := by
  have hsub : (shareUpdate prev p).Sublist
      (p :: prev.filter (fun q => decide (q.id ≠ p.id))) := List.take_sublist _ _
  have hnd : ((p :: prev.filter (fun q => decide (q.id ≠ p.id))).map Product.id).Nodup := by
    rw [List.map_cons, List.nodup_cons]
    refine ⟨?_, ?_⟩
    · intro hmem
      rw [List.mem_map] at hmem
      obtain ⟨q, hq, hid⟩ := hmem
      rw [List.mem_filter] at hq
      have hne := hq.2
      simp only [decide_eq_true_eq] at hne
      exact hne hid
    · exact h.sublist ((List.filter_sublist prev).map Product.id)
  exact hnd.sublist (hsub.map Product.id)

theorem shareUpdate_head (prev : List Product) (p : Product) :
    (shareUpdate prev p).head? = some p := by
  rw [shareUpdate, show (10 : Nat) = 9 + 1 from rfl, List.take_succ_cons, List.head?_cons]

theorem shareUpdate_tail_sublist (prev : List Product) (p : Product) :
    (shareUpdate prev p).tail.Sublist prev := by
  rw [shareUpdate, show (10 : Nat) = 9 + 1 from rfl, List.take_succ_cons, List.tail_cons]
  exact (List.take_sublist _ _).trans (List.filter_sublist _)

theorem shareUpdate_reshare_length (prev : List Product) (p : Product)
    (hmem : p.id ∈ prev.map Product.id) :
    (shareUpdate prev p).length ≤ prev.length := by
  have hlt : (prev.filter (fun q => decide (q.id ≠ p.id))).length < prev.length := by
    rw [List.mem_map] at hmem
    obtain ⟨q, hq, hid⟩ := hmem
    refine List.length_filter_lt_length_iff_exists.mpr ⟨q, hq, ?_⟩
    simp [hid]
  have hle : (shareUpdate prev p).length ≤
      (p :: prev.filter (fun q => decide (q.id ≠ p.id))).length := by
    rw [shareUpdate]
    exact (List.take_sublist _ _).length_le
  simp only [List.length_cons] at hle
  omega

theorem foldl_shareUpdate_length (ps : List Product) :
    ∀ acc : List Product, acc.length ≤ 10 →
      (List.foldl shareUpdate acc ps).length ≤ 10 := by
  induction ps with
  | nil => intro acc h; simpa using h
  | cons p ps ih => intro acc _; exact ih _ (shareUpdate_length_le acc p)

theorem foldl_shareUpdate_nodup (ps : List Product) :
    ∀ acc : List Product, (acc.map Product.id).Nodup →
      ((List.foldl shareUpdate acc ps).map Product.id).Nodup := by
  induction ps with
  | nil => intro acc h; simpa using h
  | cons p ps ih => intro acc h; exact ih _ (shareUpdate_nodup acc p h)

theorem viewerRun_products (ps : List Product) (rid : String) :
    ∀ s : ViewerState, s.roomId = rid →
      (viewerRun s (ps.map (fun p => InEvent.productShared rid p))).1.featuredProducts =
        List.foldl shareUpdate s.featuredProducts ps := by
  induction ps with
  | nil => intro s _; rfl
  | cons p ps ih =>
      intro s h1
      have hstep : viewerHandle s (InEvent.productShared rid p) =
          ({ s with featuredProducts := shareUpdate s.featuredProducts p }, []) := by
        simp [viewerHandle, h1]
      simp only [List.map_cons, viewerRun, hstep, List.foldl_cons]
      exact ih _ h1

theorem viewerRun_roomId (events : List InEvent) :
    ∀ s : ViewerState, (viewerRun s events).1.roomId = s.roomId := by
  induction events with
  | nil => intro s; rfl
  | cons e es ih =>
      intro s
      simp only [viewerRun]
      rw [ih, viewerHandle_fields]

/-! ### Host join fan-out and registry invariant -/

theorem hostRun_joins_out (uids : List Nat) (rid : String) (sid : Nat) :
    ∀ s : HostState, s.roomId = rid → s.sellerId = sid →
      (hostRun s (uids.map (fun u => InEvent.participantJoined rid u Role.viewer))).2 =
        uids.map (offerOut rid sid) := by
  induction uids with
  | nil => intro s _ _; rfl
  | cons u us ih =>
      intro s h1 h2
      have hout : (hostHandle s (InEvent.participantJoined rid u Role.viewer)).2.1 =
          [offerOut rid sid u] := by
        subst h1; subst h2
        simp only [hostHandle, offerOut]
        rw [if_neg (by simp)]
      have hfields := hostHandle_fields s (InEvent.participantJoined rid u Role.viewer)
      have hroom : (hostHandle s (InEvent.participantJoined rid u Role.viewer)).1.roomId = rid := by
        rw [hfields]; exact h1
      have hsid :
          (hostHandle s (InEvent.participantJoined rid u Role.viewer)).1.sellerId = sid := by
        rw [hfields]; exact h2
      simp only [List.map_cons, hostRun, hout]
      rw [ih _ hroom hsid]
      rfl

theorem countP_isOfferTo_map (rid : String) (sid u : Nat) (ws : List Nat) :
    (ws.map (offerOut rid sid)).countP (isOfferTo u) = ws.count u := by
  induction ws with
  | nil => rfl
  | cons w ws ih =>
      simp only [List.map_cons, List.countP_cons, List.count_cons, ih]
      by_cases hwu : w = u <;> simp [isOfferTo, offerOut, hwu]

theorem hostHandle_keys_nodup (s : HostState) (e : InEvent)
    (h : (mapKeys s.peers).Nodup) : (mapKeys (hostHandle s e).1.peers).Nodup := by
  cases e with
  | viewerCountUpdated rid vc => simp only [hostHandle]; split <;> simpa using h
  | participantJoined rid uid role =>
      simp only [hostHandle]
      split
      · simpa using h
      · rcases hm : mapGet s.peers uid with _ | pc <;> simp only [ensurePeer, hm]
        · exact mapKeys_mapSet_nodup _ _ _ (mapKeys_mapSet_nodup _ _ _ h)
        · exact mapKeys_mapSet_nodup _ _ _ h
  | participantLeft rid uid =>
      simp only [hostHandle]
      split
      · simpa using h
      · exact mapKeys_mapDelete_nodup _ _ h
  | commentCreated rid uid msg => simp only [hostHandle]; split <;> simpa using h
  | productShared rid p => simpa using h
  | streamSignal rid f t p =>
      simp only [hostHandle]
      split
      · simpa using h
      · rcases hm : mapGet s.peers f with _ | pc <;> simp only [ensurePeer, hm]
        · exact mapKeys_mapSet_nodup _ _ _ (mapKeys_mapSet_nodup _ _ _ h)
        · exact mapKeys_mapSet_nodup _ _ _ h

theorem hostRun_keys_nodup (events : List InEvent) :
    ∀ s : HostState, (mapKeys s.peers).Nodup →
      (mapKeys (hostRun s events).1.peers).Nodup := by
  induction events with
  | nil => intro s h; simpa using h
  | cons e es ih =>
      intro s h
      simp only [hostRun]
      exact ih _ (hostHandle_keys_nodup s e h)

/-- Run of the host handlers preserving the socket and profile refs: no inbound
event ever changes them, so states reachable from a completed `setup` (where
the socket is created only after the profile was loaded) keep satisfying
`socket = true → profile.isSome`. -/
theorem hostRun_socket_profile (events : List InEvent) :
    ∀ s : HostState,
      (hostRun s events).1.socket = s.socket ∧ (hostRun s events).1.profile = s.profile := by
  induction events with
  | nil => intro s; exact ⟨rfl, rfl⟩
  | cons e es ih =>
      intro s
      simp only [hostRun]
      constructor
      · rw [(ih _).1, hostHandle_fields]
      · rw [(ih _).2, hostHandle_fields]

/-! ### Claims -/

/-- C1 (counterexample): the claim says a `stream_signal` carrying only an ICE
candidate from an unknown remote is dropped with no PeerSession created. In
the code the Host handler calls `ensurePeer(payload.fromUserId)` before any
type dispatch, so an addressed candidate from unknown user 99 creates a
registry entry (with the candidate applied); the Viewer handler likewise
lazily creates `pcRef` on any accepted signal. -/
theorem stray_candidate_creates_peer_cex :
    mapGet (initHost "r1" 10).peers 99 = none ∧
    mapGet (hostHandle (initHost "r1" 10)
        (InEvent.streamSignal "r1" 99 (some 10)
          { type := SignalType.iceCandidate, sdp := none,
            candidate := some "c0" })).1.peers 99 =
      some { localDescription := none, remoteDescription := none, candidates := ["c0"],
             tracksAttached := true } ∧
    (initViewer "r1" 42).pc = none ∧
    (viewerHandle (initViewer "r1" 42)
        (InEvent.streamSignal "r1" 99 (some 42)
          { type := SignalType.iceCandidate, sdp := none,
            candidate := some "c1" })).1.pc =
      some { localDescription := none, remoteDescription := none, candidates := ["c1"],
             tracksAttached := false } := by
  decide

/-- C1 (amended): an addressed ICE-candidate `stream_signal` from a remote
participant with no existing PeerSession is not dropped: the Host lazily
creates a session via `ensurePeer` and applies the candidate to it, and the
Viewer lazily creates its single connection and applies the candidate;
neither side emits anything in that handler. -/
theorem stray_candidate_lazily_creates_peer (s : HostState) (v : ViewerState)
    (f g : Nat) (c d : Candidate)
    (hs : mapGet s.peers f = none) (hv : v.pc = none) :
    (hostHandle s (InEvent.streamSignal s.roomId f (some s.sellerId)
        { type := SignalType.iceCandidate, sdp := none, candidate := some c })).1.peers =
      mapSet s.peers f
        { localDescription := none, remoteDescription := none, candidates := [c],
          tracksAttached := s.stream } ∧
    (hostHandle s (InEvent.streamSignal s.roomId f (some s.sellerId)
        { type := SignalType.iceCandidate, sdp := none, candidate := some c })).2.1 = [] ∧
    (viewerHandle v (InEvent.streamSignal v.roomId g (some v.viewerId)
        { type := SignalType.iceCandidate, sdp := none, candidate := some d })).1.pc =
      some { localDescription := none, remoteDescription := none, candidates := [d],
             tracksAttached := false } ∧
    (viewerHandle v (InEvent.streamSignal v.roomId g (some v.viewerId)
        { type := SignalType.iceCandidate, sdp := none, candidate := some d })).2 = [] := by
  have hhguard : ¬ (s.roomId ≠ s.roomId ∨ some s.sellerId ≠ some s.sellerId) := by simp
  have hvguard : ¬ (v.roomId ≠ v.roomId ∨
      toUserIdBlocks (some v.viewerId) v.viewerId = true) := by
    simp [toUserIdBlocks]
  refine ⟨?_, ?_, ?_, ?_⟩
  · simp only [hostHandle]
    rw [if_neg hhguard]
    simp only [ensurePeer, hs]
    rw [mapSet_mapSet]
    rfl
  · simp only [hostHandle]
    rw [if_neg hhguard]
  · simp only [viewerHandle]
    rw [if_neg hvguard]
    simp [hv, applyOffer, applyCandidate, newPeerConn]
  · simp only [viewerHandle]
    rw [if_neg hvguard]
    simp [hv, applyOffer, applyCandidate, newPeerConn]

/-- C1 witness: the amended statement evaluated at concrete states. -/
theorem stray_candidate_lazily_creates_peer_witness :
    mapGet (initHost "w1" 3).peers 7 = none ∧
    (initViewer "w2" 4).pc = none ∧
    ((hostHandle (initHost "w1" 3) (InEvent.streamSignal "w1" 7 (some 3)
        { type := SignalType.iceCandidate, sdp := none, candidate := some "wc" })).1.peers =
      mapSet (initHost "w1" 3).peers 7
        { localDescription := none, remoteDescription := none, candidates := ["wc"],
          tracksAttached := true } ∧
     (hostHandle (initHost "w1" 3) (InEvent.streamSignal "w1" 7 (some 3)
        { type := SignalType.iceCandidate, sdp := none, candidate := some "wc" })).2.1 = [] ∧
     (viewerHandle (initViewer "w2" 4) (InEvent.streamSignal "w2" 8 (some 4)
        { type := SignalType.iceCandidate, sdp := none, candidate := some "wd" })).1.pc =
      some { localDescription := none, remoteDescription := none, candidates := ["wd"],
             tracksAttached := false } ∧
     (viewerHandle (initViewer "w2" 4) (InEvent.streamSignal "w2" 8 (some 4)
        { type := SignalType.iceCandidate, sdp := none, candidate := some "wd" })).2 = []) :=
  ⟨rfl, rfl,
   stray_candidate_lazily_creates_peer (initHost "w1" 3) (initViewer "w2" 4) 7 8 "wc" "wd"
     rfl rfl⟩

/-- C2 (counterexample): the claim promises exactly one offer per distinct
joining viewer id for every sequence of `participant_joined`(viewer) events;
but the handler re-runs `createOffer` and re-emits on a duplicate join of the
same id (only the PeerSession is deduplicated), so the sequence
`[join 20, join 20]` produces two offers addressed to 20. -/
theorem duplicate_join_double_offer_cex :
    ((hostRun (initHost "r1" 10)
        [InEvent.participantJoined "r1" 20 Role.viewer,
         InEvent.participantJoined "r1" 20 Role.viewer]).2.countP (isOfferTo 20)) = 2 := by
  decide

/-- C2 (amended): for a sequence of `participant_joined`(viewer) events for the
joined room whose viewer ids are pairwise distinct, a Host with an active
local media source emits exactly one offer per joining viewer id; and for
every inbound event sequence whatsoever the registry holds at most one
PeerSession per viewer id (its key list stays duplicate-free). -/
theorem offer_per_join_and_unique_sessions (s : HostState) (uids : List Nat)
    (hnodup : uids.Nodup) (hpeers : s.peers = []) (_hstream : s.stream = true) :
    (∀ u ∈ uids,
      ((hostRun s
          (uids.map (fun w => InEvent.participantJoined s.roomId w Role.viewer))).2.countP
        (isOfferTo u)) = 1) ∧
    (∀ events : List InEvent, (mapKeys (hostRun s events).1.peers).Nodup) := by
  constructor
  · intro u hu
    rw [hostRun_joins_out uids s.roomId s.sellerId s rfl rfl,
      countP_isOfferTo_map s.roomId s.sellerId u uids]
    exact List.count_eq_one_of_mem hnodup hu
  · intro events
    refine hostRun_keys_nodup events s ?_
    rw [hpeers]
    simp [mapKeys]

/-- C2 witness: the amended statement at a concrete host and two viewers. -/
theorem offer_per_join_and_unique_sessions_witness :
    ([6, 7] : List Nat).Nodup ∧ (initHost "wr" 5).peers = [] ∧
    (initHost "wr" 5).stream = true ∧
    ((∀ u ∈ ([6, 7] : List Nat),
        ((hostRun (initHost "wr" 5)
            ([6, 7].map (fun w => InEvent.participantJoined "wr" w Role.viewer))).2.countP
          (isOfferTo u)) = 1) ∧
     (∀ events : List InEvent,
        (mapKeys (hostRun (initHost "wr" 5) events).1.peers).Nodup)) :=
  ⟨by decide, rfl, rfl,
   offer_per_join_and_unique_sessions (initHost "wr" 5) [6, 7] (by decide) rfl rfl⟩

/-- C3 (counterexample): the claim says a matching-room `stream_signal` without
`toUserId` is processed by every participant; the Host guard
`payload.toUserId !== sellerId` compares `undefined` with the seller id and
returns, so the Host discards a room-matching broadcast offer entirely: state
unchanged, nothing emitted, nothing closed, no session created. -/
theorem host_drops_broadcast_cex :
    hostHandle (initHost "r1" 10)
      (InEvent.streamSignal "r1" 7 none
        { type := SignalType.offer, sdp := some "sdp-o", candidate := none }) =
      (initHost "r1" 10, [], []) := by
  decide

/-- C3 (amended): a `stream_signal` with no `toUserId` is treated as broadcast
and processed only by the Viewer (whose guard passes and which lazily creates
its connection); the Host requires `toUserId` to equal its own id, so it
discards every broadcast signal regardless of room. -/
theorem broadcast_viewer_processes_host_drops (s : HostState) (v : ViewerState)
    (rid : String) (f g : Nat) (p q : SignalPayload) (hv : v.pc = none) :
    hostHandle s (InEvent.streamSignal rid f none p) = (s, [], []) ∧
    ((viewerHandle v (InEvent.streamSignal v.roomId g none q)).1.pc).isSome = true := by
  constructor
  · simp only [hostHandle]
    rw [if_pos (Or.inr (by simp))]
  · simp only [viewerHandle]
    rw [if_neg (by simp [toUserIdBlocks])]
    simp [hv]

/-- C3 witness: the amended statement at concrete states. -/
theorem broadcast_viewer_processes_host_drops_witness :
    (initViewer "w3" 4).pc = none ∧
    (hostHandle (initHost "w3" 3) (InEvent.streamSignal "x" 7 none
        { type := SignalType.offer, sdp := some "s", candidate := none }) =
      (initHost "w3" 3, [], []) ∧
     ((viewerHandle (initViewer "w3" 4) (InEvent.streamSignal "w3" 8 none
        { type := SignalType.offer, sdp := some "s", candidate := none })).1.pc).isSome =
       true) :=
  ⟨rfl,
   broadcast_viewer_processes_host_drops (initHost "w3" 3) (initViewer "w3" 4) "x" 7 8
     { type := SignalType.offer, sdp := some "s", candidate := none }
     { type := SignalType.offer, sdp := some "s", candidate := none } rfl⟩

/-- C4 (counterexample): the claim says that on a failed room-join the socket
is not created at any point, including while the join request is in flight.
On the Viewer page the socket effect runs right after mount, while the join
mutation is still pending and `isError` is still false, so there is a valid
run in which the socket is open in the in-flight phase and the join then
fails. -/
theorem viewer_socket_open_while_join_pending_cex :
    vRun VPhase.mounted [VEvent.effectsRun] = VPhase.inFlight ∧
    viewerSocketOpen VPhase.inFlight = true ∧
    vRun VPhase.mounted [VEvent.effectsRun, VEvent.joinResult false] = VPhase.failed := by
  decide

/-- C4 (amended): the Host never creates the socket when the join request
fails (its `setup` awaits the join before everything else), and the Viewer,
though it opens the socket optimistically while the join is in flight,
disconnects it when the join error lands and never reopens it for that
`(roomId, viewerId)` episode. -/
theorem socket_never_open_after_join_failure :
    (∀ es : List VEvent,
        viewerSocketOpen
          (vRun (vRun VPhase.mounted [VEvent.effectsRun, VEvent.joinResult false]) es) =
          false) ∧
    (∀ mediaOk : Bool, (hostSetup false mediaOk).socketCreated = false) := by
  constructor
  · intro es
    have hfail : vRun VPhase.mounted [VEvent.effectsRun, VEvent.joinResult false] =
        VPhase.failed := rfl
    rw [hfail]
    have hstay : ∀ es2 : List VEvent, vRun VPhase.failed es2 = VPhase.failed := by
      intro es2
      induction es2 with
      | nil => rfl
      | cons e es2 ih =>
          cases e with
          | effectsRun => simpa [vRun, vStep] using ih
          | joinResult ok => cases ok <;> simpa [vRun, vStep] using ih
    rw [hstay es]
    rfl
  · intro mediaOk
    cases mediaOk <;> rfl

/-- C5 (counterexample): the claim says any `stream_signal` whose `toUserId`
is present and differs from the local id is discarded with no state change.
JavaScript truthiness makes `toUserId: 0` falsy, so the Viewer treats it as a
broadcast: with local id 42 and `toUserId = 0`, the handler creates the peer
connection and emits an answer. -/
theorem zero_toUserId_not_discarded_cex :
    ((viewerHandle (initViewer "r1" 42)
        (InEvent.streamSignal "r1" 7 (some 0)
          { type := SignalType.offer, sdp := some "sdp-o", candidate := none })).1.pc ≠
      none) ∧
    ((viewerHandle (initViewer "r1" 42)
        (InEvent.streamSignal "r1" 7 (some 0)
          { type := SignalType.offer, sdp := some "sdp-o", candidate := none })).2 ≠ []) := by
  decide

/-- C5 (amended): an inbound `stream_signal` is discarded with no state change
and no emission when its room differs from the locally joined room (both
roles), when on the Viewer its `toUserId` is present, nonzero and differs from
the local id, and on the Host whenever `toUserId` is anything but exactly the
host id. -/
theorem mismatched_or_foreign_room_signal_discarded (s : HostState) (v : ViewerState)
    (rid rid2 : String) (f g : Nat) (t u : Option Nat) (p q : SignalPayload)
    (hhost : rid ≠ s.roomId ∨ t ≠ some s.sellerId)
    (hviewer : rid2 ≠ v.roomId ∨ ∃ n, u = some n ∧ n ≠ 0 ∧ n ≠ v.viewerId) :
    hostHandle s (InEvent.streamSignal rid f t p) = (s, [], []) ∧
    viewerHandle v (InEvent.streamSignal rid2 g u q) = (v, []) := by
  constructor
  · simp only [hostHandle]
    rw [if_pos hhost]
  · have hcond : rid2 ≠ v.roomId ∨ toUserIdBlocks u v.viewerId = true := by
      rcases hviewer with hr | ⟨n, rfl, hn0, hnv⟩
      · exact Or.inl hr
      · right
        simp [toUserIdBlocks, hn0, hnv]
    simp only [viewerHandle]
    rw [if_pos hcond]

/-- C5 witness: the amended statement at concrete states (foreign room at the
host, mismatched nonzero recipient at the viewer). -/
theorem mismatched_or_foreign_room_signal_discarded_witness :
    ("x" ≠ (initHost "w5" 1).roomId ∨
      (none : Option Nat) ≠ some (initHost "w5" 1).sellerId) ∧
    ("w5" ≠ (initViewer "w5" 2).roomId ∨
      ∃ n, (some 9 : Option Nat) = some n ∧ n ≠ 0 ∧ n ≠ (initViewer "w5" 2).viewerId) ∧
    (hostHandle (initHost "w5" 1) (InEvent.streamSignal "x" 7 none
        { type := SignalType.answer, sdp := some "s", candidate := none }) =
      (initHost "w5" 1, [], []) ∧
     viewerHandle (initViewer "w5" 2) (InEvent.streamSignal "w5" 8 (some 9)
        { type := SignalType.offer, sdp := some "s", candidate := none }) =
      (initViewer "w5" 2, [])) :=
  ⟨Or.inl (by decide), Or.inr ⟨9, rfl, by decide, by decide⟩,
   mismatched_or_foreign_room_signal_discarded (initHost "w5" 1) (initViewer "w5" 2)
     "x" "w5" 7 8 none (some 9)
     { type := SignalType.answer, sdp := some "s", candidate := none }
     { type := SignalType.offer, sdp := some "s", candidate := none }
     (Or.inl (by decide)) (Or.inr ⟨9, rfl, by decide, by decide⟩)⟩

/-- C6: when `participant_left` for a viewer id with a registered PeerSession
arrives at the Host for the joined room, exactly that session is closed
(`close()` is invoked on it alone) and removed from the registry, nothing is
emitted, and the registry entry of every other id is unchanged. -/
theorem participant_left_removes_only_departed (s : HostState) (uid : Nat) (pc : PeerConn)
    (hmem : mapGet s.peers uid = some pc) :
    hostHandle s (InEvent.participantLeft s.roomId uid) =
      ({ s with peers := mapDelete s.peers uid }, [], [uid]) ∧
    mapGet (hostHandle s (InEvent.participantLeft s.roomId uid)).1.peers uid = none ∧
    (∀ w, w ≠ uid →
      mapGet (hostHandle s (InEvent.participantLeft s.roomId uid)).1.peers w =
        mapGet s.peers w) := by
  have hstep : hostHandle s (InEvent.participantLeft s.roomId uid) =
      ({ s with peers := mapDelete s.peers uid }, [], [uid]) := by
    simp only [hostHandle]
    rw [if_neg (by simp), hmem]
  refine ⟨hstep, ?_, ?_⟩
  · rw [hstep]
    exact mapGet_mapDelete_self s.peers uid
  · intro w hw
    rw [hstep]
    exact mapGet_mapDelete_ne s.peers uid w hw

/-- C6 witness: a host with sessions for 20 and 21 receiving
`participant_left` for 20. -/
theorem participant_left_removes_only_departed_witness :
    mapGet
        ({ initHost "w6" 3 with
            peers := [(20, newPeerConn true), (21, newPeerConn true)] } : HostState).peers
        20 = some (newPeerConn true) ∧
    (hostHandle
        ({ initHost "w6" 3 with
            peers := [(20, newPeerConn true), (21, newPeerConn true)] } : HostState)
        (InEvent.participantLeft "w6" 20) =
      ({ ({ initHost "w6" 3 with
              peers := [(20, newPeerConn true), (21, newPeerConn true)] } : HostState) with
          peers := mapDelete [(20, newPeerConn true), (21, newPeerConn true)] 20 },
       [], [20]) ∧
     mapGet (hostHandle
        ({ initHost "w6" 3 with
            peers := [(20, newPeerConn true), (21, newPeerConn true)] } : HostState)
        (InEvent.participantLeft "w6" 20)).1.peers 20 = none ∧
     (∀ w, w ≠ 20 →
        mapGet (hostHandle
            ({ initHost "w6" 3 with
                peers := [(20, newPeerConn true), (21, newPeerConn true)] } : HostState)
            (InEvent.participantLeft "w6" 20)).1.peers w =
          mapGet [(20, newPeerConn true), (21, newPeerConn true)] w)) :=
  ⟨rfl,
   participant_left_removes_only_departed
     ({ initHost "w6" 3 with
         peers := [(20, newPeerConn true), (21, newPeerConn true)] } : HostState)
     20 (newPeerConn true) rfl⟩

/-- C7: for every sequence of `comment_created` events for the joined room,
processed from an empty log, both the Host and the Viewer comment logs equal
exactly the most recent 40 (or all, if fewer) comments in arrival order, and
hence never exceed 40 entries; since the statement quantifies over all
sequences it applies to every prefix, i.e. at every point of a reception
sequence. -/
theorem comment_log_keeps_last_forty (hs : HostState) (vs : ViewerState)
    (pairs : List (Nat × String)) (hhc : hs.comments = []) (hvc : vs.comments = []) :
    ((hostRun hs (pairs.map (fun q => InEvent.commentCreated hs.roomId q.1 q.2))).1.comments =
      (pairs.map (fun q => Comment.mk q.1 q.2)).drop (pairs.length - 40)) ∧
    ((viewerRun vs (pairs.map (fun q => InEvent.commentCreated vs.roomId q.1 q.2))).1.comments =
      (pairs.map (fun q => Comment.mk q.1 q.2)).drop (pairs.length - 40)) ∧
    ((hostRun hs
        (pairs.map (fun q => InEvent.commentCreated hs.roomId q.1 q.2))).1.comments.length ≤
      40) ∧
    ((viewerRun vs
        (pairs.map (fun q => InEvent.commentCreated vs.roomId q.1 q.2))).1.comments.length ≤
      40) := by
  have hHost :
      (hostRun hs (pairs.map (fun q => InEvent.commentCreated hs.roomId q.1 q.2))).1.comments =
        (pairs.map (fun q => Comment.mk q.1 q.2)).drop (pairs.length - 40) := by
    rw [hostRun_comments pairs hs.roomId hs rfl, hhc, pushComment_fold, List.length_map]
  have hViewer :
      (viewerRun vs (pairs.map (fun q => InEvent.commentCreated vs.roomId q.1 q.2))).1.comments =
        (pairs.map (fun q => Comment.mk q.1 q.2)).drop (pairs.length - 40) := by
    rw [viewerRun_comments pairs vs.roomId vs rfl, hvc, pushComment_fold, List.length_map]
  refine ⟨hHost, hViewer, ?_, ?_⟩
  · rw [hHost, List.length_drop, List.length_map]
    omega
  · rw [hViewer, List.length_drop, List.length_map]
    omega

/-- C7 witness: both logs after two comments. -/
theorem comment_log_keeps_last_forty_witness :
    (initHost "w7" 3).comments = [] ∧ (initViewer "w7" 4).comments = [] ∧
    (((hostRun (initHost "w7" 3)
        ([(1, "a"), (2, "b")].map
          (fun q => InEvent.commentCreated "w7" q.1 q.2))).1.comments =
      ([(1, "a"), (2, "b")].map (fun q => Comment.mk q.1 q.2)).drop
        (([(1, "a"), (2, "b")] : List (Nat × String)).length - 40)) ∧
     ((viewerRun (initViewer "w7" 4)
        ([(1, "a"), (2, "b")].map
          (fun q => InEvent.commentCreated "w7" q.1 q.2))).1.comments =
      ([(1, "a"), (2, "b")].map (fun q => Comment.mk q.1 q.2)).drop
        (([(1, "a"), (2, "b")] : List (Nat × String)).length - 40)) ∧
     ((hostRun (initHost "w7" 3)
        ([(1, "a"), (2, "b")].map
          (fun q => InEvent.commentCreated "w7" q.1 q.2))).1.comments.length ≤ 40) ∧
     ((viewerRun (initViewer "w7" 4)
        ([(1, "a"), (2, "b")].map
          (fun q => InEvent.commentCreated "w7" q.1 q.2))).1.comments.length ≤ 40)) :=
  ⟨rfl, rfl,
   comment_log_keeps_last_forty (initHost "w7" 3) (initViewer "w7" 4)
     [(1, "a"), (2, "b")] rfl rfl⟩

/-- The viewer page state after a sequence of `product_shared` events for the
joined room. -/
def viewerAfterShares (vs : ViewerState) (ps : List Product) : ViewerState :=
  (viewerRun vs (ps.map (fun p => InEvent.productShared vs.roomId p))).1

/-- C8: starting from an empty list, after any sequence of `product_shared`
events for the joined room the viewer-local shared-product list has at most
10 entries with pairwise distinct item ids; sharing one more product puts it
at index 0 with the remaining entries a subsequence of the previous list
(newest first, relative order preserved), and re-sharing an id already
present does not increase the length. -/
theorem shared_products_bounded_dedup_newest_first (vs : ViewerState)
    (ps : List Product) (p : Product) (hfp : vs.featuredProducts = []) :
    ((viewerAfterShares vs ps).featuredProducts.length ≤ 10) ∧
    (((viewerAfterShares vs ps).featuredProducts.map Product.id).Nodup) ∧
    ((viewerHandle (viewerAfterShares vs ps)
        (InEvent.productShared vs.roomId p)).1.featuredProducts.head? = some p) ∧
    ((viewerHandle (viewerAfterShares vs ps)
        (InEvent.productShared vs.roomId p)).1.featuredProducts.tail.Sublist
      (viewerAfterShares vs ps).featuredProducts) ∧
    (p.id ∈ (viewerAfterShares vs ps).featuredProducts.map Product.id →
      (viewerHandle (viewerAfterShares vs ps)
          (InEvent.productShared vs.roomId p)).1.featuredProducts.length ≤
        (viewerAfterShares vs ps).featuredProducts.length) := by
  have hL : (viewerAfterShares vs ps).featuredProducts = List.foldl shareUpdate [] ps := by
    unfold viewerAfterShares
    rw [viewerRun_products ps vs.roomId vs rfl, hfp]
  have hroom : (viewerAfterShares vs ps).roomId = vs.roomId := viewerRun_roomId _ _
  have hstep :
      (viewerHandle (viewerAfterShares vs ps)
          (InEvent.productShared vs.roomId p)).1.featuredProducts =
        shareUpdate (viewerAfterShares vs ps).featuredProducts p := by
    simp [viewerHandle, hroom]
  refine ⟨?_, ?_, ?_, ?_, ?_⟩
  · rw [hL]
    exact foldl_shareUpdate_length ps [] (by simp)
  · rw [hL]
    exact foldl_shareUpdate_nodup ps [] (by simp)
  · rw [hstep]
    exact shareUpdate_head _ p
  · rw [hstep]
    exact shareUpdate_tail_sublist _ p
  · intro hmem
    rw [hstep]
    exact shareUpdate_reshare_length _ p hmem

/-- C8 witness: two shares then a re-share of the first product. -/
theorem shared_products_bounded_dedup_newest_first_witness :
    (initViewer "w8" 4).featuredProducts = [] ∧
    (((viewerAfterShares (initViewer "w8" 4)
        [{ id := 1, title := "t1", description := "d1", price := 5, imageUrl := "u1" },
         { id := 2, title := "t2", description := "d2", price := 6,
           imageUrl := "u2" }]).featuredProducts.length ≤ 10) ∧
     (((viewerAfterShares (initViewer "w8" 4)
        [{ id := 1, title := "t1", description := "d1", price := 5, imageUrl := "u1" },
         { id := 2, title := "t2", description := "d2", price := 6,
           imageUrl := "u2" }]).featuredProducts.map Product.id).Nodup) ∧
     ((viewerHandle (viewerAfterShares (initViewer "w8" 4)
        [{ id := 1, title := "t1", description := "d1", price := 5, imageUrl := "u1" },
         { id := 2, title := "t2", description := "d2", price := 6, imageUrl := "u2" }])
        (InEvent.productShared "w8"
          { id := 1, title := "t1", description := "d1", price := 5,
            imageUrl := "u1" })).1.featuredProducts.head? =
       some { id := 1, title := "t1", description := "d1", price := 5, imageUrl := "u1" }) ∧
     ((viewerHandle (viewerAfterShares (initViewer "w8" 4)
        [{ id := 1, title := "t1", description := "d1", price := 5, imageUrl := "u1" },
         { id := 2, title := "t2", description := "d2", price := 6, imageUrl := "u2" }])
        (InEvent.productShared "w8"
          { id := 1, title := "t1", description := "d1", price := 5,
            imageUrl := "u1" })).1.featuredProducts.tail.Sublist
       (viewerAfterShares (initViewer "w8" 4)
        [{ id := 1, title := "t1", description := "d1", price := 5, imageUrl := "u1" },
         { id := 2, title := "t2", description := "d2", price := 6,
           imageUrl := "u2" }]).featuredProducts) ∧
     (Product.id { id := 1, title := "t1", description := "d1", price := 5, imageUrl := "u1" } ∈
        (viewerAfterShares (initViewer "w8" 4)
          [{ id := 1, title := "t1", description := "d1", price := 5, imageUrl := "u1" },
           { id := 2, title := "t2", description := "d2", price := 6,
             imageUrl := "u2" }]).featuredProducts.map Product.id →
       (viewerHandle (viewerAfterShares (initViewer "w8" 4)
          [{ id := 1, title := "t1", description := "d1", price := 5, imageUrl := "u1" },
           { id := 2, title := "t2", description := "d2", price := 6, imageUrl := "u2" }])
          (InEvent.productShared "w8"
            { id := 1, title := "t1", description := "d1", price := 5,
              imageUrl := "u1" })).1.featuredProducts.length ≤
         (viewerAfterShares (initViewer "w8" 4)
          [{ id := 1, title := "t1", description := "d1", price := 5, imageUrl := "u1" },
           { id := 2, title := "t2", description := "d2", price := 6,
             imageUrl := "u2" }]).featuredProducts.length)) :=
  ⟨rfl,
   shared_products_bounded_dedup_newest_first (initViewer "w8" 4)
     [{ id := 1, title := "t1", description := "d1", price := 5, imageUrl := "u1" },
      { id := 2, title := "t2", description := "d2", price := 6, imageUrl := "u2" }]
     { id := 1, title := "t1", description := "d1", price := 5, imageUrl := "u1" } rfl⟩

/-- C9: for every draw `r` in `[0,1)`, the unauthenticated viewer id
`Math.floor(r * 1000000) + 1` is an integer in `[1, 1000000]`, and being
memoised with an empty dependency array it is the same at every render of the
session (always the value computed from the first draw). -/
theorem random_viewer_id_in_range_and_memoised (draws : ℕ → ℚ)
    (h0 : 0 ≤ draws 0) (h1 : draws 0 < 1) :
    (∀ n, useMemoRandomViewerId draws n = randomViewerIdDraw (draws 0)) ∧
    1 ≤ randomViewerIdDraw (draws 0) ∧ randomViewerIdDraw (draws 0) ≤ 1000000 := by
  refine ⟨?_, ?_, ?_⟩
  · intro n
    induction n with
    | zero => rfl
    | succ n ih => simpa [useMemoRandomViewerId] using ih
  · unfold randomViewerIdDraw
    have hfl : (0 : ℤ) ≤ ⌊draws 0 * 1000000⌋ :=
      Int.floor_nonneg.mpr (mul_nonneg h0 (by norm_num))
    omega
  · unfold randomViewerIdDraw
    have hm : draws 0 * 1000000 < 1 * 1000000 :=
      mul_lt_mul_of_pos_right h1 (by norm_num)
    have hfl : ⌊draws 0 * 1000000⌋ < 1000000 := by
      refine Int.floor_lt.mpr ?_
      push_cast
      linarith
    omega

/-- C9 witness: the bounds at the concrete draw `1/2` (id `500001`). -/
theorem random_viewer_id_in_range_and_memoised_witness :
    (0 : ℚ) ≤ 1 / 2 ∧ (1 / 2 : ℚ) < 1 ∧
    ((∀ n, useMemoRandomViewerId (fun _ => (1 : ℚ) / 2) n =
        randomViewerIdDraw ((1 : ℚ) / 2)) ∧
     1 ≤ randomViewerIdDraw ((1 : ℚ) / 2) ∧ randomViewerIdDraw ((1 : ℚ) / 2) ≤ 1000000) :=
  ⟨by norm_num, by norm_num,
   random_viewer_id_in_range_and_memoised (fun _ => (1 : ℚ) / 2) (by norm_num)
     (by norm_num)⟩

/-- C10: `sendComment` (both pages) emits a `send_comment` event exactly when
the whitespace-trimmed input is nonempty and the socket exists — in which case
the payload text is the trimmed message, the input resets to empty and nothing
else changes — and otherwise leaves all state unchanged and emits nothing.
The Host guard additionally checks the profile; the hypothesis records the
flow invariant that a created host socket implies a loaded profile, which
`hostRun_socket_profile` shows every inbound event preserves. -/
theorem sendComment_emits_iff_nonblank_and_connected (v : ViewerState) (h : HostState)
    (hinv : h.socket = true → h.profile.isSome = true) :
    (jsTrim v.message ≠ "" ∧ v.socket = true →
      viewerSendComment v =
        ({ v with message := "" },
         [OutMsg.sendComment v.roomId v.viewerId (jsTrim v.message)])) ∧
    (jsTrim v.message = "" ∨ v.socket = false → viewerSendComment v = (v, [])) ∧
    (jsTrim h.message ≠ "" ∧ h.socket = true →
      ∃ pr, h.profile = some pr ∧
        hostSendComment h =
          ({ h with message := "" },
           [OutMsg.sendComment h.roomId pr.sub (jsTrim h.message)])) ∧
    (jsTrim h.message = "" ∨ h.socket = false → hostSendComment h = (h, [])) := by
  refine ⟨?_, ?_, ?_, ?_⟩
  · rintro ⟨hm, hsock⟩
    unfold viewerSendComment
    rw [if_neg (by simp [hm, hsock])]
  · intro hc
    unfold viewerSendComment
    rw [if_pos hc]
  · rintro ⟨hm, hsock⟩
    have hpr := hinv hsock
    rcases hp : h.profile with _ | pr
    · rw [hp] at hpr
      simp at hpr
    · refine ⟨pr, rfl, ?_⟩
      unfold hostSendComment
      rw [if_neg (by simp [hm, hsock, hp]), hp]
  · intro hc
    unfold hostSendComment
    rw [if_pos (by rcases hc with hc | hc; exacts [Or.inl hc, Or.inr (Or.inr hc)])]

/-- C10 witness: a viewer with input `" hi "` (emits the trimmed text) and a
host with empty input (emits nothing). -/
theorem sendComment_emits_iff_nonblank_and_connected_witness :
    (jsTrim ({ initViewer "wv" 9 with message := " hi " } : ViewerState).message ≠ "" ∧
      ({ initViewer "wv" 9 with message := " hi " } : ViewerState).socket = true) ∧
    (jsTrim (initHost "wh" 4).message = "" ∨ (initHost "wh" 4).socket = false) ∧
    (viewerSendComment ({ initViewer "wv" 9 with message := " hi " } : ViewerState) =
      ({ ({ initViewer "wv" 9 with message := " hi " } : ViewerState) with message := "" },
       [OutMsg.sendComment "wv" 9 (jsTrim " hi ")]) ∧
     hostSendComment (initHost "wh" 4) = (initHost "wh" 4, [])) :=
  ⟨⟨by decide, rfl⟩, Or.inl (by decide),
   (sendComment_emits_iff_nonblank_and_connected
      ({ initViewer "wv" 9 with message := " hi " } : ViewerState) (initHost "wh" 4)
      (fun _ => rfl)).1 ⟨by decide, rfl⟩,
   (sendComment_emits_iff_nonblank_and_connected
      ({ initViewer "wv" 9 with message := " hi " } : ViewerState) (initHost "wh" 4)
      (fun _ => rfl)).2.2.2 (Or.inl (by decide))⟩

end ProductLive
